import Mathlib

/-
Verification of the fleet traffic-coordination core:
a shallow embedding of `controllers/traffic_manager.py`,
`controllers/fleet_manager.py` and `src/models/robot.py`.

Python wall-clock reads (`time.time()`) are modelled by an explicit
rational time parameter `t`; Python dicts keyed by vertex / edge ids are
modelled as functions into `Option`, where `none` models an absent key.
-/

namespace Fleet

/-- Pointwise update of a map modelled as a function into `Option`. -/
def updF {α β : Type} [DecidableEq α] (f : α → Option β) (a : α) (b : Option β) :
    α → Option β :=
  fun x => if x = a then b else f x

/-- State of `TrafficManager`: `vertex_locks` maps a vertex id to
`(robot_id, timestamp)`, `edge_locks` maps an ordered vertex pair to the
same, `waiting_queues` maps a vertex id to the list of waiting robot ids.
`waiting_queues` is a Python `defaultdict(list)`; `none` models a key that
has never been created. -/
structure TrafficState where
  vertex_locks : Nat → Option (Nat × ℚ)
  edge_locks : Nat × Nat → Option (Nat × ℚ)
  waiting_queues : Nat → Option (List Nat)

/-- Python `self.lock_duration = 5.0` from `TrafficManager.__init__`. -/
def lock_duration : ℚ := 5

/-- A fresh `TrafficManager()`: all tables empty. -/
def initState : TrafficState :=
  { vertex_locks := fun _ => none
    edge_locks := fun _ => none
    waiting_queues := fun _ => none }

/-- The per-entry blocking check of `request_path` / `is_path_clear`:
an entry blocks `rid` at time `t` iff it exists, is held by a different
robot, and `t - lock_time < lock_duration`.  Returns the blocking holder. -/
def blockerOf (rid : Nat) (t : ℚ) : Option (Nat × ℚ) → Option Nat
  | some rt => if rt.1 ≠ rid ∧ t - rt.2 < lock_duration then some rt.1 else none
  | none => none

/-- The consecutive pairs `(path[i], path[i+1])` scanned by the Python
loop `for i in range(len(path) - 1)`. -/
def pathPairs (path : List Nat) : List (Nat × Nat) := path.zip path.tail

/-- First blocker found by the scan of `request_path`: for each pair the
vertex `path[i]` is checked first, then the edge `(path[i], path[i+1])`.
Returns `(queue_vertex, holder)` where `queue_vertex` is the vertex whose
waiting queue records the denied robot (always `path[i]`). -/
def findBlock (rid : Nat) (t : ℚ) (s : TrafficState) : List (Nat × Nat) → Option (Nat × Nat)
  | [] => none
  | (u, v) :: rest =>
    match blockerOf rid t (s.vertex_locks u) with
    | some r => some (u, r)
    | none =>
      match blockerOf rid t (s.edge_locks (u, v)) with
      | some r => some (u, r)
      | none => findBlock rid t s rest

/-- The commit loop of `request_path`: stamp every scanned vertex and
edge with `(rid, t)`. -/
def stampAll (rid : Nat) (t : ℚ) (s : TrafficState) : List (Nat × Nat) → TrafficState
  | [] => s
  | (u, v) :: rest =>
    stampAll rid t
      { s with vertex_locks := updF s.vertex_locks u (some (rid, t))
               edge_locks := updF s.edge_locks (u, v) (some (rid, t)) } rest

/-- Embedding of `TrafficManager.request_path(robot_id, path)`.  Here `t` models the single
`current_time = time.time()` read at the top of the call.  On denial the
robot is appended to the waiting queue of the scanned vertex unless
already present (the Python membership test on the `defaultdict` creates
the key, so the key is set in either case); the lock tables are untouched.
On grant every scanned element is stamped with `(robot_id, current_time)`. -/
def request_path (rid : Nat) (path : List Nat) (t : ℚ) (s : TrafficState) :
    TrafficState × Bool × Option Nat :=
  match findBlock rid t s (pathPairs path) with
  | some (u, r) =>
    let cur := (s.waiting_queues u).getD []
    let cur2 := if rid ∈ cur then cur else cur ++ [rid]
    ({ s with waiting_queues := updF s.waiting_queues u (some cur2) }, false, some r)
  | none => (stampAll rid t s (pathPairs path), true, none)

/-- The waiting queue of `u` after a request by `rid` is denied at `u`:
the Python membership test on the `defaultdict` materialises the key, and
`rid` is appended unless already present. -/
def deniedQueue (rid : Nat) (s : TrafficState) (u : Nat) : List Nat :=
  if rid ∈ (s.waiting_queues u).getD [] then (s.waiting_queues u).getD []
  else (s.waiting_queues u).getD [] ++ [rid]

/-- The vertex-lock table after the first block of `release_path`: the
entry at `vid` is deleted iff it is held by `rid`. -/
def releasedVertexLocks (rid vid : Nat) (s : TrafficState) : Nat → Option (Nat × ℚ) :=
  match s.vertex_locks vid with
  | some rt => if rt.1 = rid then updF s.vertex_locks vid none else s.vertex_locks
  | none => s.vertex_locks

/-- The edge-lock table after the second block of `release_path`: every
entry held by `rid` is deleted, wherever it is. -/
def releasedEdgeLocks (rid : Nat) (s : TrafficState) : Nat × Nat → Option (Nat × ℚ) :=
  fun e =>
    match s.edge_locks e with
    | some rt => if rt.1 = rid then none else some rt
    | none => none

/-- Embedding of `TrafficManager.release_path(robot_id, vertex_id)`: removes the vertex
lock at `vertex_id` iff held by `robot_id`, removes every edge lock held by
`robot_id`, and, when `vertex_id` has a waiting-queue entry, returns its
contents and resets the entry to the empty list.  When `vertex_id` has no
waiting-queue entry the Python function falls off the end and returns
`None`, modelled as `none`. -/
def release_path (rid vid : Nat) (s : TrafficState) :
    TrafficState × Option (List Nat) :=
  match s.waiting_queues vid with
  | some l =>
    ({ vertex_locks := releasedVertexLocks rid vid s, edge_locks := releasedEdgeLocks rid s,
       waiting_queues := updF s.waiting_queues vid (some []) }, some l)
  | none =>
    ({ vertex_locks := releasedVertexLocks rid vid s, edge_locks := releasedEdgeLocks rid s,
       waiting_queues := s.waiting_queues }, none)

/-- One mutation of the lease table through the public interface. -/
inductive TMStep : TrafficState → TrafficState → Prop
  | request (rid : Nat) (path : List Nat) (t : ℚ) (s : TrafficState) :
      TMStep s (request_path rid path t s).1
  | release (rid vid : Nat) (s : TrafficState) :
      TMStep s (release_path rid vid s).1

/-- Lease-table states reachable from a fresh `TrafficManager()` through
`request_path` and `release_path`. -/
inductive TMReach : TrafficState → Prop
  | init : TMReach initState
  | step {s s2 : TrafficState} : TMReach s → TMStep s s2 → TMReach s2

/-- Vertex `v` carries a reservation by agent `a` that is unexpired at
time `t`. -/
def vertexLive (s : TrafficState) (v a : Nat) (t : ℚ) : Prop :=
  ∃ t0, s.vertex_locks v = some (a, t0) ∧ t - t0 < lock_duration

/-- Edge `e` carries a reservation by agent `a` that is unexpired at
time `t`. -/
def edgeLive (s : TrafficState) (e : Nat × Nat) (a : Nat) (t : ℚ) : Prop :=
  ∃ t0, s.edge_locks e = some (a, t0) ∧ t - t0 < lock_duration

/-- A scanned pair is uncontested for `rid` at time `t`: neither its
vertex nor its edge has a live lock held by another robot. -/
def pairClear (rid : Nat) (t : ℚ) (s : TrafficState) (p : Nat × Nat) : Prop :=
  blockerOf rid t (s.vertex_locks p.1) = none ∧ blockerOf rid t (s.edge_locks p) = none

/-- The holder reported for one scanned pair: the vertex lock is checked
before the edge lock, as in the Python loop body. -/
def pairBlocker (rid : Nat) (t : ℚ) (s : TrafficState) (p : Nat × Nat) : Option Nat :=
  match blockerOf rid t (s.vertex_locks p.1) with
  | some r => some r
  | none => blockerOf rid t (s.edge_locks p)

/-- Every recorded waiting list holds each robot id at most once. -/
def wqInv (s : TrafficState) : Prop :=
  ∀ v l, s.waiting_queues v = some l → ∀ x, l.count x ≤ 1

/-- Status enum `RobotStatus` from `src/models/robot.py`. -/
inductive RobotStatus where
  | IDLE
  | MOVING
  | WAITING
  | TASK_COMPLETE
  | BLOCKED
deriving DecidableEq

/-- The state of one `Robot`.  The purely visual fields of the Python
class (`color`, `size`, `waiting_time`, `task_start_time`, `last_vertex`,
`next_x`, `next_y`) are omitted: no modelled operation reads them.
`last_retry_time` is a dynamically created Python attribute, so `none`
models "attribute absent". -/
structure Robot where
  robot_id : Nat
  current_vertex : Nat
  target_vertex : Option Nat
  status : RobotStatus
  path : List Nat
  current_edge_index : Nat
  current_x : ℚ
  current_y : ℚ
  move_progress : ℚ
  move_speed : ℚ
  blocked_by : Option Nat
  last_retry_time : Option ℚ
deriving DecidableEq

/-- Embedding of `Robot.__init__(robot_id, spawn_vertex)`: IDLE, empty path, cursor 0,
`move_speed = 0.05`. -/
def mkRobot (rid v : Nat) : Robot :=
  { robot_id := rid
    current_vertex := v
    target_vertex := none
    status := RobotStatus.IDLE
    path := []
    current_edge_index := 0
    current_x := 0
    current_y := 0
    move_progress := 0
    move_speed := 1 / 20
    blocked_by := none
    last_retry_time := none }

/-- Embedding of `Robot.start_task(target, path, start_pos)`. -/
def Robot.start_task (r : Robot) (target : Nat) (path : List Nat)
    (start_pos : ℚ × ℚ) : Robot :=
  { r with target_vertex := some target
           path := path
           current_edge_index := 0
           status := RobotStatus.MOVING
           current_x := start_pos.1
           current_y := start_pos.2
           move_progress := 0 }

/-- Embedding of `Robot.set_blocked(blocking_robot_id)`. -/
def Robot.set_blocked (r : Robot) (b : Option Nat) : Robot :=
  { r with status := RobotStatus.BLOCKED, blocked_by := b }

/-- Embedding of `Robot._smooth_step(x)`: clamped smooth-step ease. -/
def smooth_step (x : ℚ) : ℚ :=
  let c := max 0 (min 1 x)
  c * c * (3 - 2 * c)

/-- Embedding of `Robot._lerp(start, end, t)`: clamped linear interpolation. -/
def lerp (a b t : ℚ) : ℚ :=
  let c := max 0 (min 1 t)
  a + (b - a) * c

/-- The final branch of `Robot.update_position`: the cursor has reached
the last edge, so snap to the target vertex's exact position and finish.
With `target_vertex = None` the Python code would fault in
`get_vertex_pos(None)`; that case is modelled as the identity (no modelled
flow reaches it: MOVING is only entered by `start_task`, which sets the
target). -/
def Robot.complete_move (r : Robot) (pos : Nat → ℚ × ℚ) : Robot :=
  match r.target_vertex with
  | some tv =>
    { r with current_x := (pos tv).1
             current_y := (pos tv).2
             status := RobotStatus.TASK_COMPLETE
             current_vertex := tv }
  | none => r

/-- The mid-path branch of `Robot.update_position`: accumulate
`move_progress += move_speed * delta_time`; on `>= 1` advance the cursor,
reset progress, set `current_vertex` to the vertex just reached and, when
another edge remains, switch the interpolation endpoints to it; finally
recompute the eased interpolated position. -/
def Robot.step_move (r : Robot) (dt : ℚ) (pos : Nat → ℚ × ℚ) : Robot :=
  let cu := r.path.getD r.current_edge_index 0
  let nx := r.path.getD (r.current_edge_index + 1) 0
  let p := r.move_progress + r.move_speed * dt
  if 1 ≤ p then
    let ci := r.current_edge_index + 1
    let cp := if ci < r.path.length - 1 then pos (r.path.getD ci 0) else pos cu
    let np := if ci < r.path.length - 1 then pos (r.path.getD (ci + 1) 0) else pos nx
    { r with current_edge_index := ci
             move_progress := 0
             current_vertex := nx
             current_x := lerp cp.1 np.1 (smooth_step 0)
             current_y := lerp cp.2 np.2 (smooth_step 0) }
  else
    { r with move_progress := p
             current_x := lerp (pos cu).1 (pos nx).1 (smooth_step p)
             current_y := lerp (pos cu).2 (pos nx).2 (smooth_step p) }

/-- Embedding of `Robot.update_position(delta_time, get_vertex_pos)`: no-op unless
MOVING with a non-empty path; complete when the cursor has reached the
last edge, otherwise advance along the current edge. -/
def Robot.update_position (r : Robot) (dt : ℚ) (pos : Nat → ℚ × ℚ) : Robot :=
  if r.status = RobotStatus.MOVING ∧ r.path ≠ [] then
    if r.path.length - 1 ≤ r.current_edge_index then r.complete_move pos
    else r.step_move dt pos
  else r

/-- The robot created by `FleetManager.spawn_robot` at vertex `v` with
coordinates `(x, y)` taken from the navigation graph. -/
def spawnedRobot (rid v : Nat) (x y : ℚ) : Robot :=
  { mkRobot rid v with current_x := x, current_y := y }

/-- The per-robot effect of `FleetManager.cancel_task` on an eligible
robot: status → IDLE, target and path cleared. -/
def cancel_effect (r : Robot) : Robot :=
  { r with status := RobotStatus.IDLE, target_vertex := none, path := [] }

/-- Robot states reachable through the operations as the fleet
orchestrator invokes them: spawn; `start_task` on an IDLE or
TASK_COMPLETE robot with the non-empty path produced by a successful
`assign_task`; `update_position`; `set_blocked` on an IDLE or
TASK_COMPLETE robot whose reservation request was denied; and the
cancel effect on a MOVING or WAITING robot. -/
inductive RReach : Robot → Prop
  | spawn (rid v : Nat) (x y : ℚ) : RReach (spawnedRobot rid v x y)
  | start {r : Robot} (target : Nat) (path : List Nat) (sp : ℚ × ℚ) :
      RReach r → (r.status = RobotStatus.IDLE ∨ r.status = RobotStatus.TASK_COMPLETE) →
      path ≠ [] → RReach (r.start_task target path sp)
  | update {r : Robot} (dt : ℚ) (pos : Nat → ℚ × ℚ) :
      RReach r → RReach (r.update_position dt pos)
  | blocked {r : Robot} (b : Option Nat) :
      RReach r → (r.status = RobotStatus.IDLE ∨ r.status = RobotStatus.TASK_COMPLETE) →
      RReach (r.set_blocked b)
  | cancelled {r : Robot} :
      RReach r → (r.status = RobotStatus.MOVING ∨ r.status = RobotStatus.WAITING) →
      RReach (cancel_effect r)

/-- The agent-state invariant exactly as the specification states it:
`path` non-empty and `path_cursor` valid iff status = MOVING, and
`target_vertex` set iff status ∈ {MOVING, BLOCKED, WAITING}. -/
def specAgentInvariant (r : Robot) : Prop :=
  ((r.path ≠ [] ∧ r.current_edge_index < r.path.length) ↔ r.status = RobotStatus.MOVING) ∧
  (r.target_vertex.isSome ↔ (r.status = RobotStatus.MOVING ∨
    r.status = RobotStatus.BLOCKED ∨ r.status = RobotStatus.WAITING))

/-- A trivial vertex-position lookup used for concrete runs. -/
def posZ : Nat → ℚ × ℚ := fun _ => (0, 0)

/-- A robot spawned at vertex 0 and started on the path `[0, 1]`. -/
def c6r1 : Robot := (spawnedRobot 1 0 0 0).start_task 1 [0, 1] (0, 0)

/-- State of `c6r1` after one `update_position` with `delta_time = 40`: the edge is
completed, the cursor reaches the last edge. -/
def c6r2 : Robot := c6r1.update_position 40 posZ

/-- State of `c6r2` after one more `update_position`: TASK_COMPLETE, with path,
cursor and target all left in place. -/
def cexRobotA : Robot := c6r2.update_position 1 posZ

/-- A freshly spawned robot marked BLOCKED by a denied assignment: its
target was never set. -/
def cexRobotB : Robot := (spawnedRobot 2 0 0 0).set_blocked (some 1)

/-- Iterated `update_position` with a fixed `delta_time` and position
lookup: the per-tick advance loop applied `k` times to one robot. -/
def advanceIter (dt : ℚ) (pos : Nat → ℚ × ℚ) : Nat → Robot → Robot
  | 0, r => r
  | Nat.succ k, r => advanceIter dt pos k (r.update_position dt pos)

/-- Bound on the number of `update_position` calls left before the robot
completes: edges remaining times (ticks per edge + 1), plus ticks left on
the current edge. -/
def stepsBound (r : Robot) (dt : ℚ) : ℕ :=
  (r.path.length - 1 - r.current_edge_index) * (⌈1 / (r.move_speed * dt)⌉₊ + 1) +
    ⌈(1 - r.move_progress) / (r.move_speed * dt)⌉₊

/-- State of `FleetManager`: the robot table, the traffic manager, the
next id to allocate, and `last_update` (a dynamically created attribute,
`none` until the first `update_robots` call).  The navigation graph is an
external collaborator, passed to each operation as functions. -/
structure FleetState where
  robots : Nat → Option Robot
  traffic : TrafficState
  next_robot_id : Nat
  last_update : Option ℚ

/-- A fresh `FleetManager`: no robots, fresh traffic manager, ids from 1. -/
def initFleet : FleetState :=
  { robots := fun _ => none
    traffic := initState
    next_robot_id := 1
    last_update := none }

/-- Embedding of `FleetManager.spawn_robot(vertex_id)`: `vertices` is the navigation
graph's vertex map (coordinates; metadata dropped).  Fails when the vertex
is unknown; otherwise creates a robot at the vertex's position under a
fresh id. -/
def spawn_robot (vertices : Nat → Option (ℚ × ℚ)) (fs : FleetState) (vid : Nat) :
    FleetState × Option Robot :=
  match vertices vid with
  | none => (fs, none)
  | some xy =>
    let r := spawnedRobot fs.next_robot_id vid xy.1 xy.2
    ({ fs with robots := updF fs.robots fs.next_robot_id (some r)
               next_robot_id := fs.next_robot_id + 1 }, some r)

/-- Embedding of `FleetManager.assign_task(robot_id, target_vertex)`.  Here `sp` is the
external `nav_graph.get_shortest_path` (empty list models the Python
falsy "no path"), `pos` is `nav_graph.get_vertex_position`, and `t` models
the `time.time()` read inside `request_path`. -/
def assign_task (sp : Nat → Nat → List Nat) (pos : Nat → ℚ × ℚ) (t : ℚ)
    (fs : FleetState) (rid target : Nat) : FleetState × Bool :=
  match fs.robots rid with
  | none => (fs, false)
  | some r =>
    if r.status = RobotStatus.IDLE ∨ r.status = RobotStatus.TASK_COMPLETE then
      let path := sp r.current_vertex target
      if path = [] then (fs, false)
      else
        let res := request_path rid path t fs.traffic
        if res.2.1 then
          let r2 := r.start_task target path (pos r.current_vertex)
          ({ fs with robots := updF fs.robots rid (some r2), traffic := res.1 }, true)
        else
          let r2 := r.set_blocked res.2.2
          ({ fs with robots := updF fs.robots rid (some r2), traffic := res.1 }, false)
    else (fs, false)

/-- Embedding of `FleetManager.cancel_task(robot_id)`.  For a robot whose status is
MOVING or WAITING the Python body calls
`self.traffic_manager.release_path(robot_id)` — one argument, but
`release_path` requires `(robot_id, vertex_id)` — so the interpreter
raises `TypeError` before any state is changed; that abort is modelled as
`Except.error ()`.  Every other status falls through to `return False`. -/
def cancel_task (fs : FleetState) (rid : Nat) : Except Unit (FleetState × Bool) :=
  match fs.robots rid with
  | none => Except.ok (fs, false)
  | some r =>
    if r.status = RobotStatus.MOVING ∨ r.status = RobotStatus.WAITING then
      Except.error ()
    else Except.ok (fs, false)

/-- The body of the `for robot in self.robots.values()` loop of
`FleetManager.update_robots`, iterated over the id order of the robot
dict.  In the MOVING branch, after a vertex transition the code binds
`next_robot = release_path(robot_id, old_vertex)` and evaluates
`next_robot in self.robots`; when `release_path` returns a waiting list
(any list, even empty) this hashes a `list` against a dict and the
interpreter raises `TypeError`, modelled as `Except.error ()`; only the
`None` return avoids it.  The BLOCKED branch retries `assign_task` at
most once per second per robot. -/
def update_robots_loop (sp : Nat → Nat → List Nat) (pos : Nat → ℚ × ℚ)
    (delta t : ℚ) : List Nat → FleetState → Except Unit FleetState
  | [], fs => Except.ok fs
  | rid :: rest, fs =>
    match fs.robots rid with
    | none => update_robots_loop sp pos delta t rest fs
    | some r =>
      if r.status = RobotStatus.MOVING then
        let r2 := r.update_position delta pos
        let fs2 := { fs with robots := updF fs.robots rid (some r2) }
        -- the robots update leaves the traffic manager untouched, so the
        -- release below reads the same lease table the Python code does
        if r2.current_vertex ≠ r.current_vertex then
          let res := release_path rid r.current_vertex fs.traffic
          let fs3 := { fs2 with traffic := res.1 }
          match res.2 with
          | some _ => Except.error ()
          | none => update_robots_loop sp pos delta t rest fs3
        else update_robots_loop sp pos delta t rest fs2
      else if r.status = RobotStatus.BLOCKED then
        if (match r.last_retry_time with
            | some lt0 => decide (t - lt0 < 1)
            | none => false) then
          update_robots_loop sp pos delta t rest fs
        else
          let r2 := { r with last_retry_time := some t }
          let fs2 := { fs with robots := updF fs.robots rid (some r2) }
          match r2.target_vertex with
          | some tgt => update_robots_loop sp pos delta t rest (assign_task sp pos t fs2 rid tgt).1
          | none => update_robots_loop sp pos delta t rest fs2
      else update_robots_loop sp pos delta t rest fs

/-- Embedding of `FleetManager.update_robots()`: computes
`delta_time = min(0.1, now - last_update)` (with `last_update` defaulting
to `now`), records `last_update = now`, then runs the per-robot loop. -/
def update_robots (sp : Nat → Nat → List Nat) (pos : Nat → ℚ × ℚ) (t : ℚ)
    (order : List Nat) (fs : FleetState) : Except Unit FleetState :=
  let delta := min (1 / 10) (t - (fs.last_update.getD t))
  update_robots_loop sp pos delta t order { fs with last_update := some t }

/-- A concrete fleet for the witnesses and failure runs: robot 1 is
MOVING mid-edge on `[0, 1]`, robot 2 is IDLE at vertex 0, robot 2's
denied request is queued at vertex 0. -/
def c3robot1 : Robot :=
  { mkRobot 1 0 with status := RobotStatus.MOVING
                     target_vertex := some 1
                     path := [0, 1]
                     move_progress := 199 / 200 }

def c3traffic : TrafficState :=
  (request_path 2 [0, 2] 0 (request_path 1 [0, 1] 0 initState).1).1

def c3fleet : FleetState :=
  { robots := updF (updF (fun _ => none) 1 (some c3robot1)) 2 (some (spawnedRobot 2 0 0 0))
    traffic := c3traffic
    next_robot_id := 3
    last_update := some 0 }

theorem updF_same {α β : Type} [DecidableEq α] (f : α → Option β) (a : α) (b : Option β) :
    updF f a b a = b := by
  simp [updF]

theorem updF_other {α β : Type} [DecidableEq α] (f : α → Option β) (a x : α) (b : Option β)
    (h : x ≠ a) : updF f a b x = f x := by
  simp [updF, h]

theorem request_path_denied (rid : Nat) (path : List Nat) (t : ℚ) (s : TrafficState)
    (u r : Nat) (hfb : findBlock rid t s (pathPairs path) = some (u, r)) :
    request_path rid path t s =
      ({ s with waiting_queues := updF s.waiting_queues u (some (deniedQueue rid s u)) },
        false, some r) := by
  unfold request_path
  rw [hfb]
  rfl

theorem request_path_granted (rid : Nat) (path : List Nat) (t : ℚ) (s : TrafficState)
    (hfb : findBlock rid t s (pathPairs path) = none) :
    request_path rid path t s = (stampAll rid t s (pathPairs path), true, none) := by
  unfold request_path
  rw [hfb]

theorem release_path_queue_some (rid vid : Nat) (s : TrafficState) (l : List Nat)
    (hq : s.waiting_queues vid = some l) :
    release_path rid vid s =
      ({ vertex_locks := releasedVertexLocks rid vid s, edge_locks := releasedEdgeLocks rid s,
         waiting_queues := updF s.waiting_queues vid (some []) }, some l) := by
  unfold release_path
  rw [hq]

theorem release_path_queue_none (rid vid : Nat) (s : TrafficState)
    (hq : s.waiting_queues vid = none) :
    release_path rid vid s =
      ({ vertex_locks := releasedVertexLocks rid vid s, edge_locks := releasedEdgeLocks rid s,
         waiting_queues := s.waiting_queues }, none) := by
  unfold release_path
  rw [hq]

/-- C1: in every reachable lease-table state, no vertex and no directed
edge is reserved by two distinct agents with both reservations unexpired
at the same time `t`. -/
theorem mutual_exclusion_of_leases (s : TrafficState) (_hreach : TMReach s)
    (t : ℚ) (a b : Nat) (hab : a ≠ b) :
    (∀ v, ¬ (vertexLive s v a t ∧ vertexLive s v b t)) ∧
    (∀ e, ¬ (edgeLive s e a t ∧ edgeLive s e b t)) := by
  constructor
  · rintro v ⟨⟨ta, ha, -⟩, ⟨tb, hb, -⟩⟩
    rw [ha] at hb
    exact hab (by injection hb with h; exact (Prod.mk.injEq _ _ _ _ ▸ h).1)
  · rintro e ⟨⟨ta, ha, -⟩, ⟨tb, hb, -⟩⟩
    rw [ha] at hb
    exact hab (by injection hb with h; exact (Prod.mk.injEq _ _ _ _ ▸ h).1)

theorem mutual_exclusion_of_leases_witness :
    TMReach initState ∧ (1 : Nat) ≠ 2 ∧
      ¬ (vertexLive initState 0 1 0 ∧ vertexLive initState 0 2 0) :=
  ⟨TMReach.init, by decide,
    (mutual_exclusion_of_leases initState TMReach.init 0 1 2 (by decide)).1 0⟩

/-- C5 (amended): full postcondition of `release_path`.  The vertex lock
at `vertex_id` is removed iff held by `robot_id`; every edge lock held by
`robot_id` is removed, edge locks of other robots are kept; other vertex
locks are untouched; when `vertex_id` has a waiting-queue entry its
contents are returned and the entry is reset to `[]`; when it has no
entry the call returns `none` and leaves the queue table unchanged. -/
theorem release_path_postcondition (rid vid : Nat) (s : TrafficState) :
    ((∀ t0, s.vertex_locks vid = some (rid, t0) →
        (release_path rid vid s).1.vertex_locks vid = none) ∧
     (∀ h t0, s.vertex_locks vid = some (h, t0) → h ≠ rid →
        (release_path rid vid s).1.vertex_locks vid = some (h, t0)) ∧
     (s.vertex_locks vid = none → (release_path rid vid s).1.vertex_locks vid = none) ∧
     (∀ x, x ≠ vid → (release_path rid vid s).1.vertex_locks x = s.vertex_locks x)) ∧
    ((∀ e t0, s.edge_locks e = some (rid, t0) →
        (release_path rid vid s).1.edge_locks e = none) ∧
     (∀ e h t0, s.edge_locks e = some (h, t0) → h ≠ rid →
        (release_path rid vid s).1.edge_locks e = some (h, t0)) ∧
     (∀ e, s.edge_locks e = none → (release_path rid vid s).1.edge_locks e = none)) ∧
    ((∀ l, s.waiting_queues vid = some l →
        (release_path rid vid s).2 = some l ∧
        (release_path rid vid s).1.waiting_queues vid = some []) ∧
     (s.waiting_queues vid = none →
        (release_path rid vid s).2 = none ∧
        (release_path rid vid s).1.waiting_queues vid = none) ∧
     (∀ v, v ≠ vid → (release_path rid vid s).1.waiting_queues v = s.waiting_queues v)) := by
  have hvl : ∀ x, releasedVertexLocks rid vid s x =
      if x = vid then
        (match s.vertex_locks vid with
          | some rt => if rt.1 = rid then none else some rt
          | none => none)
      else s.vertex_locks x := by
    intro x
    unfold releasedVertexLocks
    cases hv : s.vertex_locks vid with
    | none => by_cases hx : x = vid <;> simp [hx, hv]
    | some rt =>
      by_cases hr : rt.1 = rid
      · by_cases hx : x = vid <;> simp [hx, hr, updF]
      · by_cases hx : x = vid <;> simp [hx, hr, hv]
  have hrel : ∀ x, (release_path rid vid s).1.vertex_locks x = releasedVertexLocks rid vid s x ∧
      (∀ e, (release_path rid vid s).1.edge_locks e = releasedEdgeLocks rid s e) := by
    intro x
    cases hq : s.waiting_queues vid with
    | none => rw [release_path_queue_none rid vid s hq]; exact ⟨rfl, fun _ => rfl⟩
    | some l => rw [release_path_queue_some rid vid s l hq]; exact ⟨rfl, fun _ => rfl⟩
  refine ⟨⟨?_, ?_, ?_, ?_⟩, ⟨?_, ?_, ?_⟩, ⟨?_, ?_, ?_⟩⟩
  · intro t0 hv
    rw [(hrel vid).1, hvl vid]
    simp [hv]
  · intro h t0 hv hne
    rw [(hrel vid).1, hvl vid]
    simp [hv, hne]
  · intro hv
    rw [(hrel vid).1, hvl vid]
    simp [hv]
  · intro x hx
    rw [(hrel x).1, hvl x]
    simp [hx]
  · intro e t0 he
    rw [(hrel vid).2 e]
    simp [releasedEdgeLocks, he]
  · intro e h t0 he hne
    rw [(hrel vid).2 e]
    simp [releasedEdgeLocks, he, hne]
  · intro e he
    rw [(hrel vid).2 e]
    simp [releasedEdgeLocks, he]
  · intro l hq
    rw [release_path_queue_some rid vid s l hq]
    simp [updF]
  · intro hq
    rw [release_path_queue_none rid vid s hq]
    simp [hq]
  · intro v hv
    cases hq : s.waiting_queues vid with
    | none => rw [release_path_queue_none rid vid s hq]
    | some l =>
      rw [release_path_queue_some rid vid s l hq]
      simp [updF_other _ _ _ _ hv]

theorem release_path_postcondition_witness :
    initState.waiting_queues 7 = none ∧
      (release_path 3 7 initState).2 = none ∧
      (release_path 3 7 initState).1.waiting_queues 7 = none :=
  ⟨rfl, ((release_path_postcondition 3 7 initState).2.2.2.1 rfl).1,
    ((release_path_postcondition 3 7 initState).2.2.2.1 rfl).2⟩

/-- C5 counterexample to the claim as stated: a `release_path` call on a
vertex with no recorded waiting list returns `None` (the Python function
falls off the end), not an ordered sequence — a fresh manager released at
vertex 0 is a concrete instance. -/
theorem release_path_returns_none_counterexample :
    (release_path 1 0 initState).2 = none ∧
      ¬ ∃ l : List Nat, (release_path 1 0 initState).2 = some l := by
  have hnone : (release_path 1 0 initState).2 = none := rfl
  refine ⟨hnone, ?_⟩
  rintro ⟨l, hl⟩
  rw [hnone] at hl
  cases hl

theorem stampAll_waiting (rid : Nat) (t : ℚ) :
    ∀ (l : List (Nat × Nat)) (s : TrafficState),
      (stampAll rid t s l).waiting_queues = s.waiting_queues := by
  intro l
  induction l with
  | nil => intro s; rfl
  | cons p rest ih =>
    intro s
    obtain ⟨u, v⟩ := p
    simpa [stampAll] using ih _

theorem stampAll_vertex (rid : Nat) (t : ℚ) :
    ∀ (l : List (Nat × Nat)) (s : TrafficState) (x : Nat),
      (stampAll rid t s l).vertex_locks x =
        if x ∈ l.map Prod.fst then some (rid, t) else s.vertex_locks x := by
  intro l
  induction l with
  | nil => intro s x; simp [stampAll]
  | cons p rest ih =>
    intro s x
    obtain ⟨u, v⟩ := p
    by_cases hmem : x ∈ rest.map Prod.fst
    · simp [stampAll, ih, hmem]
    · by_cases hx : x = u
      · subst hx
        simp [stampAll, ih, hmem, updF]
      · simp [stampAll, ih, hmem, updF, hx]

theorem stampAll_edge (rid : Nat) (t : ℚ) :
    ∀ (l : List (Nat × Nat)) (s : TrafficState) (e : Nat × Nat),
      (stampAll rid t s l).edge_locks e =
        if e ∈ l then some (rid, t) else s.edge_locks e := by
  intro l
  induction l with
  | nil => intro s e; simp [stampAll]
  | cons p rest ih =>
    intro s e
    obtain ⟨u, v⟩ := p
    by_cases hmem : e ∈ rest
    · simp [stampAll, ih, hmem]
    · by_cases he : e = (u, v)
      · subst he
        simp [stampAll, ih, hmem, updF]
      · simp [stampAll, ih, hmem, updF, he]

/-- C10: every vertex and edge reservation committed by a single granted
`request_path` call carries the one timestamp `t` captured at the start of
the call, so the whole lease-set expires at the same instant. -/
theorem granted_leases_share_timestamp (rid : Nat) (path : List Nat) (t : ℚ)
    (s s2 : TrafficState) (blk : Option Nat)
    (hgrant : request_path rid path t s = (s2, true, blk)) :
    ∀ p ∈ pathPairs path,
      s2.vertex_locks p.1 = some (rid, t) ∧ s2.edge_locks p = some (rid, t) := by
  intro p hp
  unfold request_path at hgrant
  rcases hfb : findBlock rid t s (pathPairs path) with _ | ⟨u, r⟩
  · rw [hfb] at hgrant
    simp only [Prod.mk.injEq] at hgrant
    obtain ⟨hs, -, -⟩ := hgrant
    subst hs
    refine ⟨?_, ?_⟩
    · rw [stampAll_vertex]
      have hmem : p.1 ∈ (pathPairs path).map Prod.fst := List.mem_map_of_mem Prod.fst hp
      simp [hmem]
    · rw [stampAll_edge]
      simp [hp]
  · rw [hfb] at hgrant
    simp at hgrant

theorem granted_leases_share_timestamp_witness :
    request_path 1 [0, 1, 2] 4 initState =
        ((request_path 1 [0, 1, 2] 4 initState).1, true, none) ∧
      ((request_path 1 [0, 1, 2] 4 initState).1.vertex_locks 0 = some (1, 4) ∧
        (request_path 1 [0, 1, 2] 4 initState).1.edge_locks (0, 1) = some (1, 4)) := by
  refine ⟨rfl, granted_leases_share_timestamp 1 [0, 1, 2] 4 initState _ none rfl (0, 1) ?_⟩
  decide

theorem pairBlocker_vertex_some (rid : Nat) (t : ℚ) (s : TrafficState) (u v r : Nat)
    (h : blockerOf rid t (s.vertex_locks u) = some r) :
    pairBlocker rid t s (u, v) = some r := by
  unfold pairBlocker
  rw [h]

theorem pairBlocker_vertex_none (rid : Nat) (t : ℚ) (s : TrafficState) (u v : Nat)
    (h : blockerOf rid t (s.vertex_locks u) = none) :
    pairBlocker rid t s (u, v) = blockerOf rid t (s.edge_locks (u, v)) := by
  unfold pairBlocker
  rw [h]

theorem findBlock_none_of_clear (rid : Nat) (t : ℚ) (s : TrafficState) :
    ∀ l : List (Nat × Nat), (∀ p ∈ l, pairClear rid t s p) → findBlock rid t s l = none := by
  intro l
  induction l with
  | nil => intro _; rfl
  | cons p rest ih =>
    intro hcl
    obtain ⟨u, v⟩ := p
    obtain ⟨h1, h2⟩ := hcl (u, v) (List.mem_cons_self _ _)
    simp only [findBlock, h1, h2]
    exact ih fun q hq => hcl q (List.mem_cons_of_mem _ hq)

theorem findBlock_first (rid : Nat) (t : ℚ) (s : TrafficState) (u v r : Nat)
    (post : List (Nat × Nat)) :
    ∀ pre : List (Nat × Nat), (∀ p ∈ pre, pairClear rid t s p) →
      pairBlocker rid t s (u, v) = some r →
      findBlock rid t s (pre ++ (u, v) :: post) = some (u, r) := by
  intro pre
  induction pre with
  | nil =>
    intro _ hblk
    rcases hbv : blockerOf rid t (s.vertex_locks u) with _ | r0
    · rw [pairBlocker_vertex_none rid t s u v hbv] at hblk
      simp only [List.nil_append, findBlock, hbv, hblk]
    · rw [pairBlocker_vertex_some rid t s u v r0 hbv] at hblk
      injection hblk with h2
      subst h2
      simp only [List.nil_append, findBlock, hbv]
  | cons q rest ih =>
    intro hcl hblk
    obtain ⟨a, b⟩ := q
    obtain ⟨h1, h2⟩ := hcl (a, b) (List.mem_cons_self _ _)
    simp only [List.cons_append, findBlock, h1, h2]
    exact ih (fun q hq => hcl q (List.mem_cons_of_mem _ hq)) hblk

theorem deniedQueue_count (rid : Nat) (s : TrafficState) (u : Nat)
    (hinv : wqInv s) (x : Nat) : (deniedQueue rid s u).count x ≤ 1 := by
  have hcur : ((s.waiting_queues u).getD []).count x ≤ 1 := by
    rcases hq : s.waiting_queues u with _ | l0
    · simp
    · simpa using hinv u l0 hq x
  unfold deniedQueue
  split
  next hmem => exact hcur
  next hmem =>
    rw [List.count_append]
    by_cases hx : x = rid
    · subst hx
      rw [List.count_eq_zero_of_not_mem hmem]
      simp
    · have hz : List.count x [rid] = 0 :=
        List.count_eq_zero_of_not_mem (by simp [hx])
      rw [hz]
      simpa using hcur

theorem wqInv_step {s s2 : TrafficState} (hstep : TMStep s s2) (hinv : wqInv s) :
    wqInv s2 := by
  cases hstep with
  | request rid path t s =>
    rcases hfb : findBlock rid t s (pathPairs path) with _ | ⟨u, r⟩
    · rw [request_path_granted rid path t s hfb]
      intro v l hl x
      rw [stampAll_waiting] at hl
      exact hinv v l hl x
    · rw [request_path_denied rid path t s u r hfb]
      intro v l hl x
      have hl2 : updF s.waiting_queues u (some (deniedQueue rid s u)) v = some l := hl
      by_cases hv : v = u
      · subst hv
        rw [updF_same] at hl2
        injection hl2 with hl2
        subst hl2
        exact deniedQueue_count rid s v hinv x
      · rw [updF_other _ _ _ _ hv] at hl2
        exact hinv v l hl2 x
  | release rid vid s =>
    rcases hq : s.waiting_queues vid with _ | l0
    · rw [release_path_queue_none rid vid s hq]
      intro v l hl x
      exact hinv v l hl x
    · rw [release_path_queue_some rid vid s l0 hq]
      intro v l hl x
      have hl2 : updF s.waiting_queues vid (some []) v = some l := hl
      by_cases hv : v = vid
      · subst hv
        rw [updF_same] at hl2
        injection hl2 with hl2
        subst hl2
        simp
      · rw [updF_other _ _ _ _ hv] at hl2
        exact hinv v l hl2 x

theorem wqInv_reach {s : TrafficState} (h : TMReach s) : wqInv s := by
  induction h with
  | init => intro v l hl x; cases hl
  | step _ hstep ih => exact wqInv_step hstep ih

/-- C2: all-or-nothing grant.  If some scanned element of the path holds a
live reservation of another robot, the scan aborts at the first such pair:
the call returns `(false, holder)`, no lock is created or changed, the
denied robot is recorded (at most once) in that pair's vertex waiting
list, and all other waiting lists are untouched.  If every scanned element
is free, the call returns `(true, none)`, stamps every scanned vertex and
edge with `(rid, t)`, and leaves the waiting lists unchanged. -/
theorem all_or_nothing_grant (rid : Nat) (path : List Nat) (t : ℚ)
    (s : TrafficState) (hreach : TMReach s) :
    (∀ pre u v post r, pathPairs path = pre ++ (u, v) :: post →
      (∀ p ∈ pre, pairClear rid t s p) →
      pairBlocker rid t s (u, v) = some r →
      (request_path rid path t s).2 = (false, some r) ∧
      (request_path rid path t s).1.vertex_locks = s.vertex_locks ∧
      (request_path rid path t s).1.edge_locks = s.edge_locks ∧
      (∃ l, (request_path rid path t s).1.waiting_queues u = some l ∧
        rid ∈ l ∧ l.count rid ≤ 1) ∧
      (∀ w, w ≠ u → (request_path rid path t s).1.waiting_queues w = s.waiting_queues w)) ∧
    ((∀ p ∈ pathPairs path, pairClear rid t s p) →
      (request_path rid path t s).2 = (true, none) ∧
      (∀ p ∈ pathPairs path,
        (request_path rid path t s).1.vertex_locks p.1 = some (rid, t) ∧
        (request_path rid path t s).1.edge_locks p = some (rid, t)) ∧
      (request_path rid path t s).1.waiting_queues = s.waiting_queues) := by
  constructor
  · intro pre u v post r hsplit hpre hblk
    have hfb : findBlock rid t s (pathPairs path) = some (u, r) := by
      rw [hsplit]
      exact findBlock_first rid t s u v r post pre hpre hblk
    have heq := request_path_denied rid path t s u r hfb
    have h1 : (request_path rid path t s).1 =
        { s with waiting_queues := updF s.waiting_queues u (some (deniedQueue rid s u)) } := by
      rw [heq]
    have h2 : (request_path rid path t s).2 = (false, some r) := by
      rw [heq]
    refine ⟨h2, by rw [h1], by rw [h1], ⟨deniedQueue rid s u, ?_, ?_, ?_⟩, ?_⟩
    · rw [h1]
      exact updF_same _ _ _
    · unfold deniedQueue
      split
      next hmem => exact hmem
      next => simp
    · exact deniedQueue_count rid s u (wqInv_reach hreach) rid
    · intro w hw
      rw [h1]
      exact updF_other _ _ _ _ hw
  · intro hclear
    have hfb : findBlock rid t s (pathPairs path) = none :=
      findBlock_none_of_clear rid t s _ hclear
    have heq := request_path_granted rid path t s hfb
    have h1 : (request_path rid path t s).1 = stampAll rid t s (pathPairs path) := by
      rw [heq]
    have h2 : (request_path rid path t s).2 = (true, none) := by
      rw [heq]
    refine ⟨h2, ?_, by rw [h1, stampAll_waiting]⟩
    intro p hp
    constructor
    · rw [h1, stampAll_vertex]
      have hmem : p.1 ∈ (pathPairs path).map Prod.fst := List.mem_map_of_mem Prod.fst hp
      simp [hmem]
    · rw [h1, stampAll_edge]
      simp [hp]

theorem all_or_nothing_grant_witness :
    TMReach (request_path 1 [0, 1] 0 initState).1 ∧
      pathPairs [0, 2] = [] ++ (0, 2) :: [] ∧
      pairBlocker 2 1 (request_path 1 [0, 1] 0 initState).1 (0, 2) = some 1 ∧
      (request_path 2 [0, 2] 1 (request_path 1 [0, 1] 0 initState).1).2 = (false, some 1) ∧
      (∃ l, (request_path 2 [0, 2] 1
          (request_path 1 [0, 1] 0 initState).1).1.waiting_queues 0 = some l ∧
        2 ∈ l ∧ l.count 2 ≤ 1) := by
  have hreach : TMReach (request_path 1 [0, 1] 0 initState).1 :=
    TMReach.step TMReach.init (TMStep.request 1 [0, 1] 0 initState)
  have hsplit : pathPairs [0, 2] = [] ++ (0, 2) :: [] := by decide
  have hv0 : (request_path 1 [0, 1] 0 initState).1.vertex_locks 0 = some (1, 0) := rfl
  have hblk : pairBlocker 2 1 (request_path 1 [0, 1] 0 initState).1 (0, 2) = some 1 := by
    refine pairBlocker_vertex_some 2 1 _ 0 2 1 ?_
    rw [hv0]
    have hlt : (1 : ℚ) < lock_duration := by
      unfold lock_duration
      norm_num
    simp [blockerOf, hlt]
  have hmain := (all_or_nothing_grant 2 [0, 2] 1 _ hreach).1 [] 0 2 [] 1 hsplit
    (by intro p hp; cases hp) hblk
  exact ⟨hreach, hsplit, hblk, hmain.1, hmain.2.2.2.1⟩

theorem request_keeps_vertex_keys (rid : Nat) (path : List Nat) (t : ℚ)
    (s : TrafficState) (q : Nat) (hq : (s.vertex_locks q).isSome) :
    ((request_path rid path t s).1.vertex_locks q).isSome := by
  rcases hfb : findBlock rid t s (pathPairs path) with _ | ⟨u, r⟩
  · rw [request_path_granted rid path t s hfb]
    have hst := stampAll_vertex rid t (pathPairs path) s q
    by_cases hmem : q ∈ (pathPairs path).map Prod.fst
    · simp [hst, hmem]
    · simp [hst, hmem, hq]
  · rw [request_path_denied rid path t s u r hfb]
    exact hq

theorem request_keeps_edge_keys (rid : Nat) (path : List Nat) (t : ℚ)
    (s : TrafficState) (e : Nat × Nat) (he : (s.edge_locks e).isSome) :
    ((request_path rid path t s).1.edge_locks e).isSome := by
  rcases hfb : findBlock rid t s (pathPairs path) with _ | ⟨u, r⟩
  · rw [request_path_granted rid path t s hfb]
    have hst := stampAll_edge rid t (pathPairs path) s e
    by_cases hmem : e ∈ pathPairs path
    · simp [hst, hmem]
    · simp [hst, hmem, he]
  · rw [request_path_denied rid path t s u r hfb]
    exact he

/-- C8: lease expiry boundary.  For an element stamped `(h, t0)` with
`h ≠ rid`, and a path whose scan reaches that element (everything scanned
earlier is clear): while `t - t0 < lock_duration` the request is denied
with blocking id `h` (whether the element is the pair's vertex or its
edge); once `lock_duration ≤ t - t0` the per-entry check reports no
blocker, so the stale entry no longer blocks; and `request_path` never
deletes a table entry — an existing vertex or edge key is still present
after any request, only `release_path` removes entries. -/
theorem lease_expiry_boundary (rid h : Nat) (t t0 : ℚ) (path : List Nat)
    (pre post : List (Nat × Nat)) (u v : Nat) (s : TrafficState)
    (hsplit : pathPairs path = pre ++ (u, v) :: post)
    (hpre : ∀ p ∈ pre, pairClear rid t s p)
    (hne : h ≠ rid) :
    (s.vertex_locks u = some (h, t0) → t - t0 < lock_duration →
      (request_path rid path t s).2 = (false, some h)) ∧
    (blockerOf rid t (s.vertex_locks u) = none →
      s.edge_locks (u, v) = some (h, t0) → t - t0 < lock_duration →
      (request_path rid path t s).2 = (false, some h)) ∧
    (lock_duration ≤ t - t0 → blockerOf rid t (some (h, t0)) = none) ∧
    (∀ q, (s.vertex_locks q).isSome → ((request_path rid path t s).1.vertex_locks q).isSome) ∧
    (∀ e, (s.edge_locks e).isSome → ((request_path rid path t s).1.edge_locks e).isSome) := by
  refine ⟨?_, ?_, ?_, request_keeps_vertex_keys rid path t s,
    request_keeps_edge_keys rid path t s⟩
  · intro hv hlive
    have hbv : blockerOf rid t (s.vertex_locks u) = some h := by
      rw [hv]
      simp [blockerOf, hne, hlive]
    have hblk : pairBlocker rid t s (u, v) = some h :=
      pairBlocker_vertex_some rid t s u v h hbv
    have hfb : findBlock rid t s (pathPairs path) = some (u, h) := by
      rw [hsplit]
      exact findBlock_first rid t s u v h post pre hpre hblk
    rw [request_path_denied rid path t s u h hfb]
  · intro hbv he hlive
    have hbe : blockerOf rid t (s.edge_locks (u, v)) = some h := by
      rw [he]
      simp [blockerOf, hne, hlive]
    have hblk : pairBlocker rid t s (u, v) = some h :=
      (pairBlocker_vertex_none rid t s u v hbv).trans hbe
    have hfb : findBlock rid t s (pathPairs path) = some (u, h) := by
      rw [hsplit]
      exact findBlock_first rid t s u v h post pre hpre hblk
    rw [request_path_denied rid path t s u h hfb]
  · intro hexp
    have hnot : ¬ t - t0 < lock_duration := not_lt.mpr hexp
    simp [blockerOf, hnot]

theorem lease_expiry_boundary_witness :
    pathPairs [0, 1] = [] ++ (0, 1) :: [] ∧ (1 : Nat) ≠ 2 ∧
      ((request_path 1 [0, 1] 0 initState).1.vertex_locks 0 = some (1, 0) ∧
        (3 : ℚ) - 0 < lock_duration ∧
        (request_path 2 [0, 1] 3 (request_path 1 [0, 1] 0 initState).1).2 =
          (false, some 1)) ∧
      (lock_duration ≤ (9 : ℚ) - 0 → blockerOf 2 9 (some (1, (0 : ℚ))) = none) := by
  have hsplit : pathPairs [0, 1] = [] ++ (0, 1) :: [] := by decide
  have hmain := lease_expiry_boundary 2 1 3 0 [0, 1] [] [] 0 1
    (request_path 1 [0, 1] 0 initState).1 hsplit (by intro p hp; cases hp) (by decide)
  have hv0 : (request_path 1 [0, 1] 0 initState).1.vertex_locks 0 = some (1, 0) := rfl
  have hlt : (3 : ℚ) - 0 < lock_duration := by
    unfold lock_duration
    norm_num
  exact ⟨hsplit, by decide, ⟨hv0, hlt, hmain.1 hv0 hlt⟩,
    (lease_expiry_boundary 2 1 9 0 [0, 1] [] [] 0 1
      (request_path 1 [0, 1] 0 initState).1 hsplit (by intro p hp; cases hp)
      (by decide)).2.2.1⟩

theorem update_position_of_not_moving (r : Robot) (dt : ℚ) (pos : Nat → ℚ × ℚ)
    (h : ¬ (r.status = RobotStatus.MOVING ∧ r.path ≠ [])) :
    r.update_position dt pos = r := by
  unfold Robot.update_position
  rw [if_neg h]

theorem update_position_complete (r : Robot) (dt : ℚ) (pos : Nat → ℚ × ℚ)
    (h1 : r.status = RobotStatus.MOVING ∧ r.path ≠ [])
    (h2 : r.path.length - 1 ≤ r.current_edge_index) :
    r.update_position dt pos = r.complete_move pos := by
  unfold Robot.update_position
  rw [if_pos h1, if_pos h2]

theorem update_position_step (r : Robot) (dt : ℚ) (pos : Nat → ℚ × ℚ)
    (h1 : r.status = RobotStatus.MOVING ∧ r.path ≠ [])
    (h2 : ¬ r.path.length - 1 ≤ r.current_edge_index) :
    r.update_position dt pos = r.step_move dt pos := by
  unfold Robot.update_position
  rw [if_pos h1, if_neg h2]

theorem complete_move_of_some (r : Robot) (pos : Nat → ℚ × ℚ) (tv : Nat)
    (h : r.target_vertex = some tv) :
    r.complete_move pos =
      { r with current_x := (pos tv).1
               current_y := (pos tv).2
               status := RobotStatus.TASK_COMPLETE
               current_vertex := tv } := by
  unfold Robot.complete_move
  rw [h]

theorem step_move_path (r : Robot) (dt : ℚ) (pos : Nat → ℚ × ℚ) :
    (r.step_move dt pos).path = r.path := by
  simp only [Robot.step_move]
  split <;> rfl

theorem step_move_status (r : Robot) (dt : ℚ) (pos : Nat → ℚ × ℚ) :
    (r.step_move dt pos).status = r.status := by
  simp only [Robot.step_move]
  split <;> rfl

theorem step_move_target (r : Robot) (dt : ℚ) (pos : Nat → ℚ × ℚ) :
    (r.step_move dt pos).target_vertex = r.target_vertex := by
  simp only [Robot.step_move]
  split <;> rfl

theorem step_move_speed (r : Robot) (dt : ℚ) (pos : Nat → ℚ × ℚ) :
    (r.step_move dt pos).move_speed = r.move_speed := by
  simp only [Robot.step_move]
  split <;> rfl

theorem step_move_vertex (r : Robot) (dt : ℚ) (pos : Nat → ℚ × ℚ) :
    (r.step_move dt pos).current_vertex =
      if 1 ≤ r.move_progress + r.move_speed * dt then r.path.getD (r.current_edge_index + 1) 0
      else r.current_vertex := by
  simp only [Robot.step_move]
  split <;> rfl

theorem step_move_cursor (r : Robot) (dt : ℚ) (pos : Nat → ℚ × ℚ) :
    (r.step_move dt pos).current_edge_index =
      if 1 ≤ r.move_progress + r.move_speed * dt then r.current_edge_index + 1
      else r.current_edge_index := by
  simp only [Robot.step_move]
  split <;> rfl

theorem step_move_progress (r : Robot) (dt : ℚ) (pos : Nat → ℚ × ℚ) :
    (r.step_move dt pos).move_progress =
      if 1 ≤ r.move_progress + r.move_speed * dt then 0
      else r.move_progress + r.move_speed * dt := by
  simp only [Robot.step_move]
  split <;> rfl

/-- C6 (amended): in every reachable agent state, a MOVING agent has a
non-empty path, a valid path cursor, and a set target vertex; every
modelled operation preserves this. -/
theorem moving_agent_invariant (r : Robot) (h : RReach r) :
    r.status = RobotStatus.MOVING →
      r.path ≠ [] ∧ r.current_edge_index < r.path.length ∧ r.target_vertex.isSome := by
  induction h with
  | spawn rid v x y =>
    intro hst
    simp [spawnedRobot, mkRobot] at hst
  | @start r0 target path sp hr hstat hpath ih =>
    intro _
    refine ⟨?_, ?_, ?_⟩
    · simpa [Robot.start_task] using hpath
    · simpa [Robot.start_task] using List.length_pos.mpr hpath
    · simp [Robot.start_task]
  | @update r0 dt pos hr ih =>
    intro hst
    by_cases hcond : r0.status = RobotStatus.MOVING ∧ r0.path ≠ []
    · by_cases hdone : r0.path.length - 1 ≤ r0.current_edge_index
      · obtain ⟨hp, hc, htv⟩ := ih hcond.1
        rcases htvs : r0.target_vertex with _ | tv
        · rw [htvs] at htv
          cases htv
        · rw [update_position_complete r0 dt pos hcond hdone,
            complete_move_of_some r0 pos tv htvs] at hst
          simp at hst
      · obtain ⟨hp, hc, htv⟩ := ih hcond.1
        rw [update_position_step r0 dt pos hcond hdone]
        refine ⟨?_, ?_, ?_⟩
        · rw [step_move_path]
          exact hp
        · rw [step_move_cursor, step_move_path]
          push_neg at hdone
          split <;> omega
        · rw [step_move_target]
          exact htv
    · rw [update_position_of_not_moving r0 dt pos hcond] at hst ⊢
      exact ih hst
  | @blocked r0 b hr hstat ih =>
    intro hst
    simp [Robot.set_blocked] at hst
  | @cancelled r0 hr hstat ih =>
    intro hst
    simp [cancel_effect] at hst

theorem moving_agent_invariant_witness :
    RReach ((spawnedRobot 1 0 0 0).start_task 1 [0, 1] (0, 0)) ∧
      ((spawnedRobot 1 0 0 0).start_task 1 [0, 1] (0, 0)).status = RobotStatus.MOVING ∧
      (((spawnedRobot 1 0 0 0).start_task 1 [0, 1] (0, 0)).path ≠ [] ∧
        ((spawnedRobot 1 0 0 0).start_task 1 [0, 1] (0, 0)).current_edge_index <
          ((spawnedRobot 1 0 0 0).start_task 1 [0, 1] (0, 0)).path.length ∧
        ((spawnedRobot 1 0 0 0).start_task 1 [0, 1] (0, 0)).target_vertex.isSome) := by
  have hreach : RReach ((spawnedRobot 1 0 0 0).start_task 1 [0, 1] (0, 0)) :=
    RReach.start 1 [0, 1] (0, 0) (RReach.spawn 1 0 0 0) (Or.inl rfl) (by decide)
  exact ⟨hreach, rfl, moving_agent_invariant _ hreach rfl⟩

/-- C6 counterexample: the specified biconditional agent invariant fails
on reachable states.  `cexRobotA` is TASK_COMPLETE yet keeps a non-empty
path, a valid cursor and a set target (refuting both "path non-empty and
cursor valid only if MOVING" and "target set only if MOVING/BLOCKED/
WAITING"); `cexRobotB` is BLOCKED with no target (refuting "BLOCKED
implies target set"). -/
theorem agent_invariant_counterexample :
    (RReach cexRobotA ∧ ¬ specAgentInvariant cexRobotA) ∧
    (RReach cexRobotB ∧ ¬ specAgentInvariant cexRobotB) := by
  have hcond1 : c6r1.status = RobotStatus.MOVING ∧ c6r1.path ≠ [] := ⟨rfl, by decide⟩
  have hnd1 : ¬ c6r1.path.length - 1 ≤ c6r1.current_edge_index := by decide
  have hs2 : c6r2 = c6r1.step_move 40 posZ := update_position_step c6r1 40 posZ hcond1 hnd1
  have hge : (1 : ℚ) ≤ c6r1.move_progress + c6r1.move_speed * 40 := by
    have h1 : c6r1.move_progress = 0 := rfl
    have h2 : c6r1.move_speed = 1 / 20 := rfl
    rw [h1, h2]
    norm_num
  have hpath2 : c6r2.path = [0, 1] := by
    rw [hs2, step_move_path]
    rfl
  have hst2 : c6r2.status = RobotStatus.MOVING := by
    rw [hs2, step_move_status]
    rfl
  have htv2 : c6r2.target_vertex = some 1 := by
    rw [hs2, step_move_target]
    rfl
  have hcur2 : c6r2.current_edge_index = 1 := by
    rw [hs2, step_move_cursor, if_pos hge]
    rfl
  have hcond2 : c6r2.status = RobotStatus.MOVING ∧ c6r2.path ≠ [] := by
    refine ⟨hst2, ?_⟩
    rw [hpath2]
    decide
  have hd2 : c6r2.path.length - 1 ≤ c6r2.current_edge_index := by
    rw [hpath2, hcur2]
    decide
  have hA : cexRobotA =
      { c6r2 with current_x := (posZ 1).1
                  current_y := (posZ 1).2
                  status := RobotStatus.TASK_COMPLETE
                  current_vertex := 1 } := by
    show c6r2.update_position 1 posZ = _
    rw [update_position_complete c6r2 1 posZ hcond2 hd2, complete_move_of_some c6r2 posZ 1 htv2]
  have hsA : cexRobotA.status = RobotStatus.TASK_COMPLETE := by
    rw [hA]
  have hpA : cexRobotA.path ≠ [] := by
    rw [hA]
    show c6r2.path ≠ []
    rw [hpath2]
    decide
  have hcA : cexRobotA.current_edge_index < cexRobotA.path.length := by
    rw [hA]
    show c6r2.current_edge_index < c6r2.path.length
    rw [hcur2, hpath2]
    decide
  refine ⟨⟨?_, ?_⟩, ⟨?_, ?_⟩⟩
  · exact RReach.update 1 posZ (RReach.update 40 posZ
      (RReach.start 1 [0, 1] (0, 0) (RReach.spawn 1 0 0 0) (Or.inl rfl) (by decide)))
  · rintro ⟨hiff, -⟩
    have hm := hiff.mp ⟨hpA, hcA⟩
    rw [hsA] at hm
    exact absurd hm (by decide)
  · exact RReach.blocked (some 1) (RReach.spawn 2 0 0 0) (Or.inl rfl)
  · rintro ⟨-, hiff⟩
    have hm := hiff.mpr (Or.inr (Or.inl rfl))
    have hnone : cexRobotB.target_vertex = none := rfl
    rw [hnone] at hm
    exact absurd hm (by decide)

theorem ceil_sub_one_lt {x : ℚ} (hx : 1 < x) : ⌈x - 1⌉₊ < ⌈x⌉₊ := by
  have hpos : 0 < ⌈x⌉₊ := Nat.ceil_pos.mpr (lt_trans one_pos hx)
  have h1 : 1 ≤ ⌈x⌉₊ := hpos
  have hle : ⌈x - 1⌉₊ ≤ ⌈x⌉₊ - 1 := by
    rw [Nat.ceil_le, Nat.cast_sub h1, Nat.cast_one]
    have h2 := Nat.le_ceil x
    linarith
  exact lt_of_le_of_lt hle (Nat.sub_lt hpos one_pos)

theorem stepsBound_decreases (r : Robot) (dt : ℚ) (pos : Nat → ℚ × ℚ)
    (hsp : 0 < r.move_speed) (hdt : 0 < dt) (_hpr : 0 ≤ r.move_progress)
    (hcur : r.current_edge_index < r.path.length - 1) :
    stepsBound (r.step_move dt pos) dt < stepsBound r dt := by
  have hdpos : 0 < r.move_speed * dt := mul_pos hsp hdt
  unfold stepsBound
  rw [step_move_speed, step_move_path, step_move_cursor, step_move_progress]
  by_cases hge : 1 ≤ r.move_progress + r.move_speed * dt
  · rw [if_pos hge, if_pos hge]
    have h0 : ⌈(1 - (0 : ℚ)) / (r.move_speed * dt)⌉₊ = ⌈1 / (r.move_speed * dt)⌉₊ := by
      norm_num
    rw [h0]
    obtain ⟨A, hA⟩ : ∃ A, r.path.length - 1 - r.current_edge_index = A + 1 :=
      ⟨r.path.length - 1 - r.current_edge_index - 1, by omega⟩
    have hA2 : r.path.length - 1 - (r.current_edge_index + 1) = A := by omega
    rw [hA, hA2]
    have hexp : (A + 1) * (⌈1 / (r.move_speed * dt)⌉₊ + 1) =
        A * (⌈1 / (r.move_speed * dt)⌉₊ + 1) + ⌈1 / (r.move_speed * dt)⌉₊ + 1 := by
      ring
    rw [hexp]
    omega
  · rw [if_neg hge, if_neg hge]
    have hlt : r.move_progress + r.move_speed * dt < 1 := lt_of_not_ge hge
    have hx : 1 < (1 - r.move_progress) / (r.move_speed * dt) := by
      rw [lt_div_iff₀ hdpos]
      linarith
    have heq : (1 - (r.move_progress + r.move_speed * dt)) / (r.move_speed * dt) =
        (1 - r.move_progress) / (r.move_speed * dt) - 1 := by
      field_simp
      ring
    rw [heq]
    exact Nat.add_lt_add_left (ceil_sub_one_lt hx) _

theorem one_tick_completes (r : Robot) (dt : ℚ) (pos : Nat → ℚ × ℚ) (tv : Nat)
    (hst : r.status = RobotStatus.MOVING) (hp : r.path ≠ [])
    (htv : r.target_vertex = some tv)
    (hdone : r.path.length - 1 ≤ r.current_edge_index) :
    (advanceIter dt pos 1 r).status = RobotStatus.TASK_COMPLETE ∧
      (advanceIter dt pos 1 r).current_vertex = tv ∧
      (advanceIter dt pos 1 r).current_x = (pos tv).1 ∧
      (advanceIter dt pos 1 r).current_y = (pos tv).2 := by
  have h1 : advanceIter dt pos 1 r = r.update_position dt pos := rfl
  rw [h1, update_position_complete r dt pos ⟨hst, hp⟩ hdone,
    complete_move_of_some r pos tv htv]
  exact ⟨rfl, rfl, rfl, rfl⟩

theorem movement_terminates_aux (dt : ℚ) (pos : Nat → ℚ × ℚ) (tv : Nat) :
    ∀ (N : ℕ) (r : Robot), r.status = RobotStatus.MOVING → r.path ≠ [] →
      r.target_vertex = some tv → 0 < r.move_speed → 0 < dt → 0 ≤ r.move_progress →
      stepsBound r dt ≤ N →
      ∃ k, (advanceIter dt pos k r).status = RobotStatus.TASK_COMPLETE ∧
        (advanceIter dt pos k r).current_vertex = tv ∧
        (advanceIter dt pos k r).current_x = (pos tv).1 ∧
        (advanceIter dt pos k r).current_y = (pos tv).2 := by
  intro N
  induction N with
  | zero =>
    intro r hst hp htv hsp hdt hpr hN
    by_cases hdone : r.path.length - 1 ≤ r.current_edge_index
    · exact ⟨1, one_tick_completes r dt pos tv hst hp htv hdone⟩
    · exfalso
      push_neg at hdone
      have hA : 1 ≤ r.path.length - 1 - r.current_edge_index := by omega
      have hK : 1 ≤ ⌈1 / (r.move_speed * dt)⌉₊ + 1 := by omega
      have hbig : 1 ≤ stepsBound r dt := by
        unfold stepsBound
        calc 1 = 1 * 1 := by ring
        _ ≤ (r.path.length - 1 - r.current_edge_index) *
              (⌈1 / (r.move_speed * dt)⌉₊ + 1) := Nat.mul_le_mul hA hK
        _ ≤ _ := Nat.le_add_right _ _
      omega
  | succ N ih =>
    intro r hst hp htv hsp hdt hpr hN
    by_cases hdone : r.path.length - 1 ≤ r.current_edge_index
    · exact ⟨1, one_tick_completes r dt pos tv hst hp htv hdone⟩
    · have hupd : r.update_position dt pos = r.step_move dt pos :=
        update_position_step r dt pos ⟨hst, hp⟩ hdone
      push_neg at hdone
      have hdec := stepsBound_decreases r dt pos hsp hdt hpr hdone
      have hN2 : stepsBound (r.step_move dt pos) dt ≤ N := by omega
      have hpr2 : 0 ≤ (r.step_move dt pos).move_progress := by
        rw [step_move_progress]
        split
        · exact le_refl 0
        · have : 0 < r.move_speed * dt := mul_pos hsp hdt
          linarith
      obtain ⟨k, hk⟩ := ih (r.step_move dt pos)
        (by rw [step_move_status]; exact hst)
        (by rw [step_move_path]; exact hp)
        (by rw [step_move_target]; exact htv)
        (by rw [step_move_speed]; exact hsp) hdt hpr2 hN2
      refine ⟨k + 1, ?_⟩
      have hiter : advanceIter dt pos (k + 1) r =
          advanceIter dt pos k (r.step_move dt pos) := by
        show advanceIter dt pos k (r.update_position dt pos) = _
        rw [hupd]
      rw [hiter]
      exact hk

/-- C7: a MOVING agent with a granted (non-empty) path, a set target,
positive speed and non-negative progress reaches TASK_COMPLETE after
finitely many `update_position` calls with a fixed positive
`delta_time`, and at that point `current_vertex` equals the target and
the position equals the target vertex's exact coordinates. -/
theorem progress_termination_exact_arrival (r : Robot) (dt : ℚ)
    (pos : Nat → ℚ × ℚ) (tv : Nat)
    (hst : r.status = RobotStatus.MOVING) (hp : r.path ≠ [])
    (htv : r.target_vertex = some tv) (hsp : 0 < r.move_speed) (hdt : 0 < dt)
    (hpr : 0 ≤ r.move_progress) :
    ∃ k, (advanceIter dt pos k r).status = RobotStatus.TASK_COMPLETE ∧
      (advanceIter dt pos k r).current_vertex = tv ∧
      (advanceIter dt pos k r).current_x = (pos tv).1 ∧
      (advanceIter dt pos k r).current_y = (pos tv).2 :=
  movement_terminates_aux dt pos tv (stepsBound r dt) r hst hp htv hsp hdt hpr (le_refl _)

theorem progress_termination_exact_arrival_witness :
    c6r1.status = RobotStatus.MOVING ∧ c6r1.path ≠ [] ∧
      c6r1.target_vertex = some 1 ∧ 0 < c6r1.move_speed ∧ (0 : ℚ) < 1 ∧
      0 ≤ c6r1.move_progress ∧
      ∃ k, (advanceIter 1 posZ k c6r1).status = RobotStatus.TASK_COMPLETE ∧
        (advanceIter 1 posZ k c6r1).current_vertex = 1 ∧
        (advanceIter 1 posZ k c6r1).current_x = (posZ 1).1 ∧
        (advanceIter 1 posZ k c6r1).current_y = (posZ 1).2 := by
  have hsp : 0 < c6r1.move_speed := by
    have h2 : c6r1.move_speed = 1 / 20 := rfl
    rw [h2]
    norm_num
  have hpr : (0 : ℚ) ≤ c6r1.move_progress := by
    have h1 : c6r1.move_progress = 0 := rfl
    rw [h1]
  exact ⟨rfl, by decide, rfl, hsp, by norm_num, hpr,
    progress_termination_exact_arrival c6r1 1 posZ 1 rfl (by decide) rfl hsp
      (by norm_num) hpr⟩

/-- C9: `assign_task` failure semantics.  Unknown robot id, ineligible
status, or no path: the call returns `false` with the fleet state (and so
the robot) completely unchanged.  Only a coordinator denial transitions
the robot to BLOCKED, with `blocked_by` set to the holder id the
coordinator reported. -/
theorem assign_failure_semantics (sp : Nat → Nat → List Nat) (pos : Nat → ℚ × ℚ)
    (t : ℚ) (fs : FleetState) (rid target : Nat) :
    (fs.robots rid = none → assign_task sp pos t fs rid target = (fs, false)) ∧
    (∀ r, fs.robots rid = some r →
      ¬ (r.status = RobotStatus.IDLE ∨ r.status = RobotStatus.TASK_COMPLETE) →
      assign_task sp pos t fs rid target = (fs, false)) ∧
    (∀ r, fs.robots rid = some r →
      (r.status = RobotStatus.IDLE ∨ r.status = RobotStatus.TASK_COMPLETE) →
      sp r.current_vertex target = [] →
      assign_task sp pos t fs rid target = (fs, false)) ∧
    (∀ r s2 b, fs.robots rid = some r →
      (r.status = RobotStatus.IDLE ∨ r.status = RobotStatus.TASK_COMPLETE) →
      sp r.current_vertex target ≠ [] →
      request_path rid (sp r.current_vertex target) t fs.traffic = (s2, false, b) →
      assign_task sp pos t fs rid target =
        ({ fs with robots := updF fs.robots rid (some (r.set_blocked b)),
                   traffic := s2 }, false) ∧
        (r.set_blocked b).status = RobotStatus.BLOCKED ∧
        (r.set_blocked b).blocked_by = b) := by
  refine ⟨?_, ?_, ?_, ?_⟩
  · intro h
    unfold assign_task
    rw [h]
  · intro r hr hn
    unfold assign_task
    rw [hr]
    simp only [if_neg hn]
  · intro r hr hstat hsp0
    unfold assign_task
    rw [hr]
    simp only [if_pos hstat, if_pos hsp0]
  · intro r s2 b hr hstat hsp0 hreq
    unfold assign_task
    rw [hr]
    simp only [if_pos hstat, if_neg hsp0, hreq]
    exact ⟨rfl, rfl, rfl⟩

theorem assign_failure_semantics_witness :
    c3fleet.robots 5 = none ∧
      assign_task (fun _ _ => []) posZ 1 c3fleet 5 1 = (c3fleet, false) ∧
      (∃ r, c3fleet.robots 1 = some r ∧
        ¬ (r.status = RobotStatus.IDLE ∨ r.status = RobotStatus.TASK_COMPLETE)) ∧
      assign_task (fun _ _ => []) posZ 1 c3fleet 1 1 = (c3fleet, false) := by
  have h5 : c3fleet.robots 5 = none := rfl
  have h1 : c3fleet.robots 1 = some c3robot1 := rfl
  have hn : ¬ (c3robot1.status = RobotStatus.IDLE ∨
      c3robot1.status = RobotStatus.TASK_COMPLETE) := by decide
  exact ⟨h5, (assign_failure_semantics (fun _ _ => []) posZ 1 c3fleet 5 1).1 h5,
    ⟨c3robot1, h1, hn⟩,
    (assign_failure_semantics (fun _ _ => []) posZ 1 c3fleet 1 1).2.1 c3robot1 h1 hn⟩

/-- C4: `cancel_task` on a robot whose status is MOVING (or WAITING)
aborts with a `TypeError` instead of releasing, clearing and returning
`true`: the call `release_path(robot_id)` is missing the required
`vertex_id` argument.  For a BLOCKED or IDLE robot it returns `false`
without changes, as specified. -/
theorem cancel_task_raises_on_eligible_robot :
    cancel_task c3fleet 1 = Except.error () ∧
      cancel_task c3fleet 2 = Except.ok (c3fleet, false) ∧
      cancel_task c3fleet 5 = Except.ok (c3fleet, false) := by
  refine ⟨?_, ?_, ?_⟩
  · have h1 : c3fleet.robots 1 = some c3robot1 := rfl
    unfold cancel_task
    rw [h1]
    simp only [if_pos (Or.inl (by decide : c3robot1.status = RobotStatus.MOVING))]
  · have h2 : c3fleet.robots 2 = some (spawnedRobot 2 0 0 0) := rfl
    unfold cancel_task
    rw [h2]
    simp only [if_neg (by decide : ¬ ((spawnedRobot 2 0 0 0).status = RobotStatus.MOVING ∨
      (spawnedRobot 2 0 0 0).status = RobotStatus.WAITING))]
  · have h5 : c3fleet.robots 5 = none := rfl
    unfold cancel_task
    rw [h5]

theorem update_robots_loop_moving_crash (sp : Nat → Nat → List Nat)
    (pos : Nat → ℚ × ℚ) (delta t : ℚ) (rest : List Nat) (fs : FleetState)
    (rid : Nat) (r : Robot) (l : List Nat)
    (hr : fs.robots rid = some r) (hst : r.status = RobotStatus.MOVING)
    (hne : (r.update_position delta pos).current_vertex ≠ r.current_vertex)
    (hrel : (release_path rid r.current_vertex fs.traffic).2 = some l) :
    update_robots_loop sp pos delta t (rid :: rest) fs = Except.error () := by
  simp only [update_robots_loop, hr]
  rw [if_pos hst, if_pos hne, hrel]

/-- C3: the waiter retry pipeline is broken.  `release_path` does return
the full ordered waiting list, but `update_robots` binds that list where
a single robot id is expected: on the next line `next_robot in
self.robots` hashes a `list` against the robot dict, raising `TypeError`.
On the concrete fleet `c3fleet` (robot 1 MOVING and completing edge
`0 → 1` this tick, robot 2 waiting at vertex 0), the tick aborts instead
of retrying robot 2. -/
theorem update_robots_drops_waiters :
    update_robots (fun _ _ => []) posZ 1 [1] c3fleet = Except.error () := by
  have hv0 : (request_path 1 [0, 1] 0 initState).1.vertex_locks 0 = some (1, 0) := rfl
  have hb : blockerOf 2 0 ((request_path 1 [0, 1] 0 initState).1.vertex_locks 0) =
      some 1 := by
    rw [hv0]
    have hlt : (0 : ℚ) < lock_duration := by
      unfold lock_duration
      norm_num
    simp [blockerOf, hlt]
  have hfb : findBlock 2 0 (request_path 1 [0, 1] 0 initState).1 (pathPairs [0, 2]) =
      some (0, 1) := by
    show findBlock 2 0 _ [(0, 2)] = some (0, 1)
    unfold findBlock
    rw [hb]
  have hrp := request_path_denied 2 [0, 2] 0 (request_path 1 [0, 1] 0 initState).1 0 1 hfb
  have hq0 : c3traffic.waiting_queues 0 = some [2] := by
    show (request_path 2 [0, 2] 0 (request_path 1 [0, 1] 0 initState).1).1.waiting_queues 0 =
      some [2]
    rw [hrp]
    have hupd : updF (request_path 1 [0, 1] 0 initState).1.waiting_queues 0
        (some (deniedQueue 2 (request_path 1 [0, 1] 0 initState).1 0)) 0 = some [2] := by
      rw [updF_same]
      rfl
    exact hupd
  have hcond : c3robot1.status = RobotStatus.MOVING ∧ c3robot1.path ≠ [] := ⟨rfl, by decide⟩
  have hnd : ¬ c3robot1.path.length - 1 ≤ c3robot1.current_edge_index := by decide
  have hupd : c3robot1.update_position (1 / 10) posZ = c3robot1.step_move (1 / 10) posZ :=
    update_position_step c3robot1 (1 / 10) posZ hcond hnd
  have hge : (1 : ℚ) ≤ c3robot1.move_progress + c3robot1.move_speed * (1 / 10) := by
    have e1 : c3robot1.move_progress = 199 / 200 := rfl
    have e2 : c3robot1.move_speed = 1 / 20 := rfl
    rw [e1, e2]
    norm_num
  have hcv : (c3robot1.update_position (1 / 10) posZ).current_vertex = 1 := by
    rw [hupd, step_move_vertex, if_pos hge]
    rfl
  have hne : (c3robot1.update_position (1 / 10) posZ).current_vertex ≠
      c3robot1.current_vertex := by
    rw [hcv]
    decide
  have hrel : (release_path 1 c3robot1.current_vertex
      ({ c3fleet with last_update := some 1 }).traffic).2 = some [2] := by
    have h1 := release_path_queue_some 1 0 c3traffic [2] hq0
    show (release_path 1 0 c3traffic).2 = some [2]
    rw [h1]
  unfold update_robots
  have hdelta : min ((1 : ℚ) / 10) (1 - (c3fleet.last_update.getD 1)) = 1 / 10 := by
    have hlu : c3fleet.last_update = some 0 := rfl
    rw [hlu]
    show min ((1 : ℚ) / 10) (1 - 0) = 1 / 10
    rw [min_eq_left (by norm_num : (1 : ℚ) / 10 ≤ 1 - 0)]
  rw [hdelta]
  exact update_robots_loop_moving_crash (fun _ _ => []) posZ (1 / 10) 1 []
    { c3fleet with last_update := some 1 } 1 c3robot1 [2] rfl rfl hne hrel

end Fleet
